import Mathlib

/-!
Verification of the VoxelGame Blender model exporter scripts
(`src/client/Resources/Utilities/modelexporter.py` and
`src/core/Utilities/modelexporter.py`) against their specification.

The geometry is embedded over `ℚ`; Python `round(x, n)` is modelled as
round-half-to-even on rationals; Python exceptions (out-of-range indexing,
`verts[3]` on a short list) are modelled by `Option`, with `none` meaning
the script aborts with no output file written.
-/

/-- Python `round` to the nearest integer, ties to even (banker's rounding). -/
def pyRoundInt (q : ℚ) : ℤ :=
  if q - ⌊q⌋ < 1/2 then ⌊q⌋
  else if 1/2 < q - ⌊q⌋ then ⌊q⌋ + 1
  else if ⌊q⌋ % 2 = 0 then ⌊q⌋ else ⌊q⌋ + 1

/-- Python `round(q, n)`: round to `n` decimal digits. -/
def pyRound (q : ℚ) (n : ℕ) : ℚ :=
  (pyRoundInt (q * 10 ^ n) : ℚ) / 10 ^ n

/-- A 3-component vector (`mathutils.Vector`): a vertex position or a normal. -/
structure Vec3 where
  x : ℚ
  y : ℚ
  z : ℚ
deriving DecidableEq, Repr

/-- A 2-component UV coordinate (`loop.uv`). -/
structure Vec2 where
  x : ℚ
  y : ℚ
deriving DecidableEq, Repr

/-- A mesh polygon (`face`): vertex indices, loop indices, face normal,
material slot index. -/
structure Face where
  vertices : List ℕ
  loop_indices : List ℕ
  normal : Vec3
  material_index : ℕ
deriving DecidableEq, Repr

/-- The mesh snapshot: `mesh.vertices` (positions), the active UV layer's
`data` (per-loop UVs), and `mesh.polygons`. -/
structure Mesh where
  vertices : List Vec3
  uv_data : List Vec2
  polygons : List Face
deriving DecidableEq, Repr

/-- The selected object: its name, its material slots (each slot holds an
optional material, identified by its name), and its mesh data. -/
structure Obj where
  name : String
  material_slots : List (Option String)
  data : Mesh
deriving DecidableEq, Repr

/-- The exported per-corner record (class `Vertex` of the scripts). -/
structure Vertex where
  X : ℚ
  Y : ℚ
  Z : ℚ
  U : ℚ
  V : ℚ
  N : ℚ
  O : ℚ
  P : ℚ
deriving DecidableEq, Repr

/-- `Vertex.__init__` of the client script: axis swap + rounding for the
position, horizontal flip + rounding for the UV, and the normal either
swapped+rounded or zero-filled depending on `include_normals`. -/
def Vertex.make (include_normals : Bool) (co : Vec3) (uv : Vec2) (nm : Vec3) : Vertex where
  X := pyRound co.x 5
  Y := pyRound co.z 5
  Z := pyRound co.y 5
  U := pyRound |1 - uv.x| 4
  V := pyRound uv.y 4
  N := if include_normals then pyRound nm.x 4 else 0
  O := if include_normals then pyRound nm.z 4 else 0
  P := if include_normals then pyRound nm.y 4 else 0

/-- `Vertex.__init__` of the core script: identical, but normals are always
included (there is no `include_normals` option in that file). -/
def Vertex.makeCore (co : Vec3) (uv : Vec2) (nm : Vec3) : Vertex where
  X := pyRound co.x 5
  Y := pyRound co.z 5
  Z := pyRound co.y 5
  U := pyRound |1 - uv.x| 4
  V := pyRound uv.y 4
  N := pyRound nm.x 4
  O := pyRound nm.z 4
  P := pyRound nm.y 4

/-- The exported quad record (class `Quad`). -/
structure Quad where
  TextureId : ℕ
  Vert0 : Vertex
  Vert1 : Vertex
  Vert2 : Vertex
  Vert3 : Vertex
deriving DecidableEq, Repr

/-- `Quad.__init__`: reads `verts[0] .. verts[3]`; fewer than four entries
raises `IndexError` (modelled as `none`), extra entries are ignored. -/
def Quad.make (tex_id : ℕ) (verts : List Vertex) : Option Quad :=
  match verts with
  | v0 :: v1 :: v2 :: v3 :: _ => some ⟨tex_id, v0, v1, v2, v3⟩
  | _ => none

/-- The exported model (class `Model`). -/
structure Model where
  TextureNames : List String
  Quads : List Quad
deriving DecidableEq, Repr

/-- `obj.material_slots[face.material_index].material`, then the
`matName` assignment: an out-of-range slot index raises (`none`); an empty
slot falls back to the sentinel name `"none"`. -/
def matName (slots : List (Option String)) (i : ℕ) : Option String :=
  match slots.get? i with
  | none => none
  | some mat =>
    match mat with
    | some s => some s
    | none => some "none"

/-- The body of the inner
`for vertIndx, loopIndx in zip(face.vertices, face.loop_indices)` loop,
iterated over the zipped index pairs: each iteration indexes
`mesh.vertices[vertIndx]` and `uv_layer.data[loopIndx]` (out of range raises,
modelled as `none`) and appends a `Vertex` built from the position, the UV
and the supplied face normal. -/
def buildVerts (include_normals : Bool) (mesh : Mesh) (nm : Vec3) :
    List (ℕ × ℕ) → Option (List Vertex)
  | [] => some []
  | p :: rest =>
    match mesh.vertices.get? p.1, mesh.uv_data.get? p.2 with
    | some cord, some uv =>
      match buildVerts include_normals mesh nm rest with
      | none => none
      | some vs => some (Vertex.make include_normals cord uv nm :: vs)
    | _, _ => none

/-- The inner loop of the client script on a face: Python `zip` truncates to
the shorter of `face.vertices` and `face.loop_indices`. -/
def vertsOfFace (include_normals : Bool) (mesh : Mesh) (face : Face) : Option (List Vertex) :=
  buildVerts include_normals mesh face.normal (face.vertices.zip face.loop_indices)

/-- The body of the inner loop of the core script (normals always included). -/
def buildVertsCore (mesh : Mesh) (nm : Vec3) :
    List (ℕ × ℕ) → Option (List Vertex)
  | [] => some []
  | p :: rest =>
    match mesh.vertices.get? p.1, mesh.uv_data.get? p.2 with
    | some cord, some uv =>
      match buildVertsCore mesh nm rest with
      | none => none
      | some vs => some (Vertex.makeCore cord uv nm :: vs)
    | _, _ => none

/-- The inner loop of the core script on a face. -/
def vertsOfFaceCore (mesh : Mesh) (face : Face) : Option (List Vertex) :=
  buildVertsCore mesh face.normal (face.vertices.zip face.loop_indices)

/-- `if matName not in tex_names: tex_names.append(matName)`: first-seen-order
insertion into the texture-name table. -/
def insertName (names : List String) (s : String) : List String :=
  if s ∈ names then names else names ++ [s]

/-- One iteration of the `for face in mesh.polygons` loop of the client
script, acting on the accumulated state `(tex_names, quads)`:
a face whose vertex count is not 4 is skipped (`continue`); otherwise the
material name is resolved, inserted into `tex_names` if new, the four
vertices are built, and the quad is appended. -/
def processFace (include_normals : Bool) (mesh : Mesh) (slots : List (Option String))
    (st : List String × List Quad) (face : Face) : Option (List String × List Quad) :=
  if face.vertices.length ≠ 4 then some st
  else
    match matName slots face.material_index with
    | none => none
    | some s =>
      let tex_names := insertName st.1 s
      match vertsOfFace include_normals mesh face with
      | none => none
      | some verts =>
        match Quad.make (tex_names.indexOf s) verts with
        | none => none
        | some q => some (tex_names, st.2 ++ [q])

/-- One iteration of the face loop of the core script. -/
def processFaceCore (mesh : Mesh) (slots : List (Option String))
    (st : List String × List Quad) (face : Face) : Option (List String × List Quad) :=
  if face.vertices.length ≠ 4 then some st
  else
    match matName slots face.material_index with
    | none => none
    | some s =>
      let tex_names := insertName st.1 s
      match vertsOfFaceCore mesh face with
      | none => none
      | some verts =>
        match Quad.make (tex_names.indexOf s) verts with
        | none => none
        | some q => some (tex_names, st.2 ++ [q])

/-- The whole face loop of the client script: threads the state through the
faces in mesh-native order; an exception in any iteration aborts everything. -/
def extractLoop (include_normals : Bool) (mesh : Mesh) (slots : List (Option String)) :
    List String × List Quad → List Face → Option (List String × List Quad)
  | st, [] => some st
  | st, face :: rest =>
    match processFace include_normals mesh slots st face with
    | none => none
    | some st2 => extractLoop include_normals mesh slots st2 rest

/-- The face loop of the core script. -/
def extractLoopCore (mesh : Mesh) (slots : List (Option String)) :
    List String × List Quad → List Face → Option (List String × List Quad)
  | st, [] => some st
  | st, face :: rest =>
    match processFaceCore mesh slots st face with
    | none => none
    | some st2 => extractLoopCore mesh slots st2 rest

/-- The client export pipeline producing the in-memory `Model`
(`model = Model(tex_names, quads)`); `none` means the script raised and no
output file was written. -/
def exportModel (include_normals : Bool) (obj : Obj) : Option Model :=
  (extractLoop include_normals obj.data obj.material_slots ([], []) obj.data.polygons).map
    (fun st => ⟨st.1, st.2⟩)

/-- The core export pipeline. -/
def exportModelCore (obj : Obj) : Option Model :=
  (extractLoopCore obj.data obj.material_slots ([], []) obj.data.polygons).map
    (fun st => ⟨st.1, st.2⟩)

/-- `ModelEncoder` on a `Vertex`: its `__dict__` in insertion order. -/
def jsonOfVertex (v : Vertex) : String :=
  "\x7b\"X\": " ++ toString v.X ++ ", \"Y\": " ++ toString v.Y ++
  ", \"Z\": " ++ toString v.Z ++ ", \"U\": " ++ toString v.U ++
  ", \"V\": " ++ toString v.V ++ ", \"N\": " ++ toString v.N ++
  ", \"O\": " ++ toString v.O ++ ", \"P\": " ++ toString v.P ++ "\x7d"

/-- `ModelEncoder` on a `Quad`. -/
def jsonOfQuad (q : Quad) : String :=
  "\x7b\"TextureId\": " ++ toString q.TextureId ++
  ", \"Vert0\": " ++ jsonOfVertex q.Vert0 ++
  ", \"Vert1\": " ++ jsonOfVertex q.Vert1 ++
  ", \"Vert2\": " ++ jsonOfVertex q.Vert2 ++
  ", \"Vert3\": " ++ jsonOfVertex q.Vert3 ++ "\x7d"

/-- `json.dumps(model, cls=ModelEncoder)`: the serialized document, a pure
function of the model (whitespace simplified; no run-dependent data). -/
def jsonOfModel (m : Model) : String :=
  "\x7b\"TextureNames\": [" ++
  String.intercalate ", " (m.TextureNames.map (fun s => "\"" ++ s ++ "\"")) ++
  "], \"Quads\": [" ++
  String.intercalate ", " (m.Quads.map jsonOfQuad) ++ "]\x7d"

/-- One run of the whole client exporter, producing the document that is
written to disk. `_time` stands for any run-dependent ambient state (clock,
process id); the script reads none of it, which is what the parameter being
unused expresses. -/
def runExport (_time : ℕ) (include_normals : Bool) (obj : Obj) : Option String :=
  (exportModel include_normals obj).map jsonOfModel

/-- Ghost-instrumented copy of `processFace`: identical control flow, but each
appended quad is paired with the material name resolved for its face. Used
only to state and prove invariants; `extractLoopN_eq` shows it projects onto
the real loop. -/
def processFaceN (include_normals : Bool) (mesh : Mesh) (slots : List (Option String))
    (st : List String × List (Quad × String)) (face : Face) :
    Option (List String × List (Quad × String)) :=
  if face.vertices.length ≠ 4 then some st
  else
    match matName slots face.material_index with
    | none => none
    | some s =>
      let tex_names := insertName st.1 s
      match vertsOfFace include_normals mesh face with
      | none => none
      | some verts =>
        match Quad.make (tex_names.indexOf s) verts with
        | none => none
        | some q => some (tex_names, st.2 ++ [(q, s)])

/-- Ghost-instrumented copy of the face loop. -/
def extractLoopN (include_normals : Bool) (mesh : Mesh) (slots : List (Option String)) :
    List String × List (Quad × String) → List Face →
    Option (List String × List (Quad × String))
  | st, [] => some st
  | st, face :: rest =>
    match processFaceN include_normals mesh slots st face with
    | none => none
    | some st2 => extractLoopN include_normals mesh slots st2 rest

/-- The worked scenario from the specification: one quad face with positions
`(0,0,0), (1,0,0), (1,0,1), (0,0,1)`, UVs `(0,0), (1,0), (1,1), (0,1)` and
material `"stone"`. -/
def sampleMesh : Mesh where
  vertices := [⟨0, 0, 0⟩, ⟨1, 0, 0⟩, ⟨1, 0, 1⟩, ⟨0, 0, 1⟩]
  uv_data := [⟨0, 0⟩, ⟨1, 0⟩, ⟨1, 1⟩, ⟨0, 1⟩]
  polygons := [⟨[0, 1, 2, 3], [0, 1, 2, 3], ⟨0, 0, 0⟩, 0⟩]

/-- The selected object of the worked scenario. -/
def sampleObj : Obj where
  name := "block"
  material_slots := [some "stone"]
  data := sampleMesh

/-- Expected quad of the worked scenario with normals disabled. -/
def sampleQuad : Quad :=
  ⟨0, ⟨0, 0, 0, 1, 0, 0, 0, 0⟩, ⟨1, 0, 0, 0, 0, 0, 0, 0⟩,
      ⟨1, 1, 0, 0, 1, 0, 0, 0⟩, ⟨0, 1, 0, 1, 1, 0, 0, 0⟩⟩

/-- Expected export of `sampleObj` with normals disabled. -/
def sampleModel : Model where
  TextureNames := ["stone"]
  Quads := [sampleQuad]

/-- An object whose only face is a triangle (3 vertices): used to settle how
the exporter treats non-quad faces. -/
def triObj : Obj where
  name := "tri"
  material_slots := [some "stone"]
  data :=
    { vertices := [⟨0, 0, 0⟩, ⟨1, 0, 0⟩, ⟨0, 1, 0⟩]
      uv_data := [⟨0, 0⟩, ⟨1, 0⟩, ⟨0, 1⟩]
      polygons := [⟨[0, 1, 2], [0, 1, 2], ⟨0, 0, 0⟩, 0⟩] }

/-- An object whose only face has 4 vertex indices but 5 loop indices: used
to settle how the exporter treats misaligned loop data. -/
def zipObj : Obj where
  name := "zip"
  material_slots := [some "m"]
  data :=
    { vertices := [⟨0, 0, 0⟩, ⟨0, 0, 0⟩, ⟨0, 0, 0⟩, ⟨0, 0, 0⟩]
      uv_data := [⟨0, 0⟩, ⟨0, 0⟩, ⟨0, 0⟩, ⟨0, 0⟩, ⟨0, 0⟩]
      polygons := [⟨[0, 1, 2, 3], [0, 1, 2, 3, 4], ⟨0, 0, 0⟩, 0⟩] }

/-- Expected export of `zipObj`: the fifth loop index is silently dropped. -/
def zipModel : Model where
  TextureNames := ["m"]
  Quads := [⟨0, ⟨0, 0, 0, 1, 0, 0, 0, 0⟩, ⟨0, 0, 0, 1, 0, 0, 0, 0⟩,
               ⟨0, 0, 0, 1, 0, 0, 0, 0⟩, ⟨0, 0, 0, 1, 0, 0, 0, 0⟩⟩]

/-- The worked scenario's mesh with an empty material slot: exercises the
sentinel name `"none"`. -/
def noneObj : Obj where
  name := "empty"
  material_slots := [none]
  data := sampleMesh

/-- Expected export of `noneObj` with normals disabled. -/
def noneModel : Model where
  TextureNames := ["none"]
  Quads := [sampleQuad]

/-! ## Rounding lemmas -/

theorem pyRoundInt_intCast (k : ℤ) : pyRoundInt (k : ℚ) = k := by
  unfold pyRoundInt
  norm_num

theorem pyRound_intCast (k : ℤ) (n : ℕ) : pyRound (k : ℚ) n = k := by
  unfold pyRound
  have h : ((k : ℚ) * 10 ^ n) = ((k * 10 ^ n : ℤ) : ℚ) := by push_cast; ring
  rw [h, pyRoundInt_intCast]
  push_cast
  field_simp

@[simp] theorem pyRound_zero (n : ℕ) : pyRound 0 n = 0 := by
  have h := pyRound_intCast 0 n
  simpa using h

@[simp] theorem pyRound_one (n : ℕ) : pyRound 1 n = 1 := by
  have h := pyRound_intCast 1 n
  simpa using h

theorem floor_le_pyRoundInt (q : ℚ) : ⌊q⌋ ≤ pyRoundInt q := by
  unfold pyRoundInt
  split
  · exact le_refl _
  · split
    · omega
    · split <;> omega

theorem pyRoundInt_le_ceil (q : ℚ) : pyRoundInt q ≤ ⌈q⌉ := by
  have hfc : ⌊q⌋ ≤ ⌈q⌉ := Int.floor_le_ceil q
  unfold pyRoundInt
  split
  · exact hfc
  · have hlt : (⌊q⌋ : ℚ) < q := by
      have hge : (1 : ℚ)/2 ≤ q - ⌊q⌋ := by linarith [not_lt.mp (by assumption)]
      linarith
    have hc : ⌊q⌋ < ⌈q⌉ := Int.lt_ceil.mpr hlt
    split
    · omega
    · split <;> omega

theorem pyRound_nonneg {q : ℚ} (hq : 0 ≤ q) (n : ℕ) : 0 ≤ pyRound q n := by
  unfold pyRound
  have h10 : (0 : ℚ) < 10 ^ n := by positivity
  have h0 : (0 : ℤ) ≤ ⌊q * 10 ^ n⌋ := Int.floor_nonneg.mpr (by positivity)
  have h1 : (0 : ℤ) ≤ pyRoundInt (q * 10 ^ n) := le_trans h0 (floor_le_pyRoundInt _)
  have h2 : (0 : ℚ) ≤ (pyRoundInt (q * 10 ^ n) : ℚ) := by exact_mod_cast h1
  positivity

theorem pyRound_le_one {q : ℚ} (hq : q ≤ 1) (n : ℕ) : pyRound q n ≤ 1 := by
  unfold pyRound
  have h10 : (0 : ℚ) < 10 ^ n := by positivity
  have hle : q * 10 ^ n ≤ ((10 ^ n : ℤ) : ℚ) := by
    push_cast
    nlinarith
  have hc : ⌈q * 10 ^ n⌉ ≤ (10 ^ n : ℤ) := Int.ceil_le.mpr hle
  have h1 : pyRoundInt (q * 10 ^ n) ≤ (10 ^ n : ℤ) := le_trans (pyRoundInt_le_ceil _) hc
  have h2 : (pyRoundInt (q * 10 ^ n) : ℚ) ≤ ((10 ^ n : ℤ) : ℚ) := by exact_mod_cast h1
  rw [div_le_one h10]
  push_cast at h2 ⊢
  exact h2

/-! ## Concrete evaluations -/

theorem exportModel_sampleObj : exportModel false sampleObj = some sampleModel := by
  simp [exportModel, sampleObj, sampleMesh, sampleModel, sampleQuad, extractLoop,
    processFace, matName, vertsOfFace, buildVerts, Quad.make, Vertex.make, insertName,
    List.indexOf_cons]

theorem exportModel_noneObj : exportModel false noneObj = some noneModel := by
  simp [exportModel, noneObj, sampleMesh, noneModel, sampleQuad, extractLoop,
    processFace, matName, vertsOfFace, buildVerts, Quad.make, Vertex.make, insertName,
    List.indexOf_cons]

theorem exportModel_triObj : exportModel true triObj = some ⟨[], []⟩ := by
  simp [exportModel, triObj, extractLoop, processFace]

theorem exportModel_zipObj : exportModel true zipObj = some zipModel := by
  simp [exportModel, zipObj, zipModel, extractLoop, processFace,
    matName, vertsOfFace, buildVerts, Quad.make, Vertex.make, insertName,
    List.indexOf_cons]

/-! ## Helper lemmas on the extraction building blocks -/

theorem Quad.make_eq_some {t : ℕ} {vs : List Vertex} {q : Quad}
    (h : Quad.make t vs = some q) :
    q.TextureId = t ∧ ∃ rest, vs = q.Vert0 :: q.Vert1 :: q.Vert2 :: q.Vert3 :: rest := by
  match vs with
  | [] => simp [Quad.make] at h
  | [_] => simp [Quad.make] at h
  | [_, _] => simp [Quad.make] at h
  | [_, _, _] => simp [Quad.make] at h
  | v0 :: v1 :: v2 :: v3 :: rest =>
    simp only [Quad.make, Option.some.injEq] at h
    subst h
    exact ⟨rfl, rest, rfl⟩

theorem Quad.make_none {t : ℕ} {vs : List Vertex} (h : vs.length < 4) :
    Quad.make t vs = none := by
  match vs with
  | [] => rfl
  | [_] => rfl
  | [_, _] => rfl
  | [_, _, _] => rfl
  | _ :: _ :: _ :: _ :: _ => simp at h; omega

theorem buildVerts_length {include_normals : Bool} {mesh : Mesh} {nm : Vec3} :
    ∀ {ps : List (ℕ × ℕ)} {vs : List Vertex},
      buildVerts include_normals mesh nm ps = some vs → vs.length = ps.length := by
  intro ps
  induction ps with
  | nil =>
    intro vs h
    simp only [buildVerts, Option.some.injEq] at h
    subst h
    rfl
  | cons p rest ih =>
    intro vs h
    unfold buildVerts at h
    split at h
    · split at h
      · exact absurd h (by simp)
      · simp only [Option.some.injEq] at h
        subst h
        simp only [List.length_cons]
        congr 1
        apply ih
        assumption
    · exact absurd h (by simp)

theorem buildVerts_sound {include_normals : Bool} {mesh : Mesh} {nm : Vec3} :
    ∀ {ps : List (ℕ × ℕ)} {vs : List Vertex},
      buildVerts include_normals mesh nm ps = some vs →
      List.Forall₂ (fun (p : ℕ × ℕ) v => ∃ co uv,
          mesh.vertices.get? p.1 = some co ∧ mesh.uv_data.get? p.2 = some uv ∧
          v = Vertex.make include_normals co uv nm) ps vs := by
  intro ps
  induction ps with
  | nil =>
    intro vs h
    simp only [buildVerts, Option.some.injEq] at h
    subst h
    exact List.Forall₂.nil
  | cons p rest ih =>
    intro vs h
    unfold buildVerts at h
    split at h
    · split at h
      · exact absurd h (by simp)
      · simp only [Option.some.injEq] at h
        subst h
        refine List.Forall₂.cons ?_ (ih (by assumption))
        exact ⟨_, _, by assumption, by assumption, rfl⟩
    · exact absurd h (by simp)

theorem forall₂_mem_right {α β : Type} {R : α → β → Prop} :
    ∀ {l1 : List α} {l2 : List β}, List.Forall₂ R l1 l2 →
      ∀ b ∈ l2, ∃ a, a ∈ l1 ∧ R a b := by
  intro l1 l2 h
  induction h with
  | nil => intro b hb; exact absurd hb (by simp)
  | cons hr _ ih =>
    intro b hb
    rcases List.mem_cons.mp hb with rfl | hb2
    · exact ⟨_, List.mem_cons_self _ _, hr⟩
    · obtain ⟨a, ha, har⟩ := ih b hb2
      exact ⟨a, List.mem_cons_of_mem _ ha, har⟩

theorem forall₂_and_right {α β : Type} {R : α → β → Prop} {P : β → Prop} :
    ∀ {l1 : List α} {l2 : List β}, List.Forall₂ R l1 l2 →
      (∀ b ∈ l2, P b) → List.Forall₂ (fun a b => R a b ∧ P b) l1 l2 := by
  intro l1 l2 h
  induction h with
  | nil => intro _; exact List.Forall₂.nil
  | cons hr _ ih =>
    intro hp
    refine List.Forall₂.cons ⟨hr, hp _ (List.mem_cons_self _ _)⟩ ?_
    exact ih (fun b hb => hp b (List.mem_cons_of_mem _ hb))

theorem insertName_append (names : List String) (s : String) :
    ∃ ext, insertName names s = names ++ ext := by
  unfold insertName
  split
  · exact ⟨[], by simp⟩
  · exact ⟨[s], rfl⟩

theorem mem_insertName_self (names : List String) (s : String) :
    s ∈ insertName names s := by
  unfold insertName
  split
  · assumption
  · simp

theorem insertName_nodup {names : List String} (h : names.Nodup) (s : String) :
    (insertName names s).Nodup := by
  unfold insertName
  split
  · exact h
  · rw [← List.concat_eq_append]
    exact List.Nodup.concat (by assumption) h

theorem indexOf_insertName_of_mem {names : List String} {a : String} (ha : a ∈ names)
    (s : String) : (insertName names s).indexOf a = names.indexOf a := by
  obtain ⟨ext, hext⟩ := insertName_append names s
  rw [hext]
  exact List.indexOf_append_of_mem ha

theorem processFaceN_sound {include_normals : Bool} {mesh : Mesh}
    {slots : List (Option String)} {st st' : List String × List (Quad × String)}
    {face : Face}
    (h : processFaceN include_normals mesh slots st face = some st')
    (hnd : st.1.Nodup)
    (hinv : ∀ p ∈ st.2, p.2 ∈ st.1 ∧ p.1.TextureId = st.1.indexOf p.2) :
    (∃ ext, st'.1 = st.1 ++ ext) ∧ st'.1.Nodup ∧
    (∀ p ∈ st'.2, p.2 ∈ st'.1 ∧ p.1.TextureId = st'.1.indexOf p.2) ∧
    ((face.vertices.length ≠ 4 ∧ st' = st) ∨
     (face.vertices.length = 4 ∧ ∃ q s,
       st'.2 = st.2 ++ [(q, s)] ∧
       matName slots face.material_index = some s ∧
       ∃ vs, vertsOfFace include_normals mesh face = some vs ∧
         Quad.make q.TextureId vs = some q)) := by
  unfold processFaceN at h
  split at h
  · -- non-quad face: skipped, state unchanged
    simp only [Option.some.injEq] at h
    subst h
    exact ⟨⟨[], by simp⟩, hnd, hinv, Or.inl ⟨by assumption, rfl⟩⟩
  · -- quad face
    rename_i h4
    rw [not_ne_iff] at h4
    split at h
    · exact absurd h (by simp)
    · rename_i s hmat
      simp only [] at h
      split at h
      · exact absurd h (by simp)
      · rename_i verts hverts
        split at h
        · exact absurd h (by simp)
        · rename_i q hq
          simp only [Option.some.injEq] at h
          subst h
          obtain ⟨ext, hext⟩ := insertName_append st.1 s
          refine ⟨⟨ext, hext⟩, insertName_nodup hnd s, ?_, ?_⟩
          · intro p hp
            rcases List.mem_append.mp hp with hold | hnew
            · obtain ⟨hm, hid⟩ := hinv p hold
              exact ⟨hext ▸ List.mem_append_left ext hm,
                by rw [hid, indexOf_insertName_of_mem hm]⟩
            · have hps : p = (q, s) := by simpa using hnew
              subst hps
              obtain ⟨hid, -⟩ := Quad.make_eq_some hq
              exact ⟨mem_insertName_self st.1 s, hid⟩
          · obtain ⟨hid, -⟩ := Quad.make_eq_some hq
            exact Or.inr ⟨h4, q, s, rfl, hmat, verts, hverts, hid ▸ hq⟩

theorem extractLoopN_sound {include_normals : Bool} {mesh : Mesh}
    {slots : List (Option String)} :
    ∀ {faces : List Face} {st st' : List String × List (Quad × String)},
      extractLoopN include_normals mesh slots st faces = some st' →
      st.1.Nodup →
      (∀ p ∈ st.2, p.2 ∈ st.1 ∧ p.1.TextureId = st.1.indexOf p.2) →
      (∃ ext, st'.1 = st.1 ++ ext) ∧ st'.1.Nodup ∧
      (∀ p ∈ st'.2, p.2 ∈ st'.1 ∧ p.1.TextureId = st'.1.indexOf p.2) ∧
      ∃ newPairs, st'.2 = st.2 ++ newPairs ∧
        List.Forall₂ (fun face p =>
            matName slots face.material_index = some p.2 ∧
            ∃ vs, vertsOfFace include_normals mesh face = some vs ∧
              Quad.make p.1.TextureId vs = some p.1)
          (faces.filter (fun f => f.vertices.length == 4)) newPairs := by
  intro faces
  induction faces with
  | nil =>
    intro st st' h hnd hinv
    simp only [extractLoopN, Option.some.injEq] at h
    subst h
    exact ⟨⟨[], by simp⟩, hnd, hinv, [], by simp, by simp⟩
  | cons face rest ih =>
    intro st st' h hnd hinv
    unfold extractLoopN at h
    split at h
    · exact absurd h (by simp)
    · rename_i st2 hstep
      obtain ⟨⟨ext1, hext1⟩, hnd2, hinv2, hcase⟩ := processFaceN_sound hstep hnd hinv
      obtain ⟨⟨ext2, hext2⟩, hnd', hinv', newPairs2, hnew2, hrel2⟩ := ih h hnd2 hinv2
      rcases hcase with ⟨h4, rfl⟩ | ⟨h4, q, s, hst2, hmat, vs, hvs, hq⟩
      · refine ⟨⟨ext2, by rw [hext2, hext1]⟩, hnd', hinv', newPairs2, hnew2, ?_⟩
        rw [List.filter_cons_of_neg (by simpa using h4)]
        exact hrel2
      · refine ⟨⟨ext1 ++ ext2, by rw [hext2, hext1, List.append_assoc]⟩, hnd', hinv',
          (q, s) :: newPairs2, by rw [hnew2, hst2, List.append_assoc]; rfl, ?_⟩
        rw [List.filter_cons_of_pos (by simpa using h4)]
        exact List.Forall₂.cons ⟨hmat, vs, hvs, hq⟩ hrel2

theorem processFaceN_proj (include_normals : Bool) (mesh : Mesh)
    (slots : List (Option String)) (st : List String × List (Quad × String))
    (face : Face) :
    processFace include_normals mesh slots (st.1, st.2.map Prod.fst) face =
      (processFaceN include_normals mesh slots st face).map
        (fun st2 => (st2.1, st2.2.map Prod.fst)) := by
  unfold processFace processFaceN
  by_cases h4 : face.vertices.length ≠ 4
  · simp [h4]
  · simp only [h4, if_false]
    cases hmat : matName slots face.material_index with
    | none => simp
    | some s =>
      simp only []
      cases hvs : vertsOfFace include_normals mesh face with
      | none => simp
      | some vs =>
        simp only []
        cases hq : Quad.make ((insertName st.1 s).indexOf s) vs with
        | none => simp
        | some q => simp

theorem extractLoopN_proj {include_normals : Bool} {mesh : Mesh}
    {slots : List (Option String)} :
    ∀ {faces : List Face} {st : List String × List (Quad × String)},
      extractLoop include_normals mesh slots (st.1, st.2.map Prod.fst) faces =
        (extractLoopN include_normals mesh slots st faces).map
          (fun st2 => (st2.1, st2.2.map Prod.fst)) := by
  intro faces
  induction faces with
  | nil => intro st; rfl
  | cons face rest ih =>
    intro st
    unfold extractLoop extractLoopN
    rw [processFaceN_proj]
    cases hstep : processFaceN include_normals mesh slots st face with
    | none => simp
    | some st2 =>
      simp only [Option.map_some']
      exact ih

theorem exportModel_eq_extractLoopN {include_normals : Bool} {obj : Obj} {m : Model}
    (h : exportModel include_normals obj = some m) :
    ∃ stN, extractLoopN include_normals obj.data obj.material_slots ([], [])
        obj.data.polygons = some stN ∧
      m.TextureNames = stN.1 ∧ m.Quads = stN.2.map Prod.fst := by
  unfold exportModel at h
  have hproj : extractLoop include_normals obj.data obj.material_slots ([], [])
      obj.data.polygons =
      (extractLoopN include_normals obj.data obj.material_slots ([], [])
        obj.data.polygons).map (fun st2 => (st2.1, st2.2.map Prod.fst)) := by
    exact @extractLoopN_proj include_normals obj.data obj.material_slots
      obj.data.polygons (([] : List String), ([] : List (Quad × String)))
  rw [hproj] at h
  cases hN : extractLoopN include_normals obj.data obj.material_slots ([], [])
      obj.data.polygons with
  | none => rw [hN] at h; exact absurd h (by simp)
  | some stN =>
    rw [hN] at h
    simp only [Option.map_some', Option.some.injEq] at h
    subst h
    exact ⟨stN, rfl, rfl, rfl⟩

/-! ## Core/client correspondence -/

theorem Vertex.makeCore_eq (co : Vec3) (uv : Vec2) (nm : Vec3) :
    Vertex.makeCore co uv nm = Vertex.make true co uv nm := by
  simp [Vertex.make, Vertex.makeCore]

theorem buildVertsCore_eq (mesh : Mesh) (nm : Vec3) :
    ∀ ps : List (ℕ × ℕ), buildVertsCore mesh nm ps = buildVerts true mesh nm ps := by
  intro ps
  induction ps with
  | nil => rfl
  | cons p rest ih =>
    unfold buildVertsCore buildVerts
    cases hv : mesh.vertices.get? p.1 with
    | none => rfl
    | some cord =>
      cases hu : mesh.uv_data.get? p.2 with
      | none => rfl
      | some uv =>
        simp only [ih, Vertex.makeCore_eq]

theorem vertsOfFaceCore_eq (mesh : Mesh) (face : Face) :
    vertsOfFaceCore mesh face = vertsOfFace true mesh face := by
  unfold vertsOfFaceCore vertsOfFace
  rw [buildVertsCore_eq]

theorem processFaceCore_eq (mesh : Mesh) (slots : List (Option String))
    (st : List String × List Quad) (face : Face) :
    processFaceCore mesh slots st face = processFace true mesh slots st face := by
  unfold processFaceCore processFace
  rw [vertsOfFaceCore_eq]

theorem extractLoopCore_eq (mesh : Mesh) (slots : List (Option String)) :
    ∀ (faces : List Face) (st : List String × List Quad),
      extractLoopCore mesh slots st faces = extractLoop true mesh slots st faces := by
  intro faces
  induction faces with
  | nil => intro st; rfl
  | cons face rest ih =>
    intro st
    unfold extractLoopCore extractLoop
    rw [processFaceCore_eq]
    cases processFace true mesh slots st face with
    | none => rfl
    | some st2 => exact ih st2

theorem vertsOfFace_sound {include_normals : Bool} {mesh : Mesh} {face : Face}
    {vs : List Vertex} (h : vertsOfFace include_normals mesh face = some vs) :
    List.Forall₂ (fun (p : ℕ × ℕ) v => ∃ co uv,
        mesh.vertices.get? p.1 = some co ∧ mesh.uv_data.get? p.2 = some uv ∧
        v = Vertex.make include_normals co uv face.normal)
      (face.vertices.zip face.loop_indices) vs :=
  buildVerts_sound h

/-! ## Claims -/

/-- C1, counterexample: `triObj` contains a face with 3 vertices, yet
extraction succeeds (the face is silently skipped) and an output document is
produced — contradicting the claim that the export aborts with no output. -/
theorem c1_counterexample :
    (triObj.data.polygons.map fun f => f.vertices.length) = [3] ∧
    exportModel true triObj = some ⟨[], []⟩ ∧
    runExport 0 true triObj = some (jsonOfModel ⟨[], []⟩) := by
  refine ⟨by simp [triObj], exportModel_triObj, ?_⟩
  unfold runExport
  rw [exportModel_triObj]
  rfl

/-- C1 (amended): a face whose vertex count is not exactly 4 is silently
skipped — the loop iteration leaves the accumulated state unchanged and does
not fail — so the export continues and still produces an output file. -/
theorem c1_nonquad_skipped (include_normals : Bool) (mesh : Mesh)
    (slots : List (Option String)) (st : List String × List Quad) (face : Face)
    (h : face.vertices.length ≠ 4) :
    processFace include_normals mesh slots st face = some st := by
  simp [processFace, h]

theorem c1_nonquad_skipped_witness :
    processFace true triObj.data triObj.material_slots ([], [])
      ⟨[0, 1, 2], [0, 1, 2], ⟨0, 0, 0⟩, 0⟩ = some ([], []) :=
  c1_nonquad_skipped true triObj.data triObj.material_slots ([], [])
    ⟨[0, 1, 2], [0, 1, 2], ⟨0, 0, 0⟩, 0⟩ (by decide)

/-- C2, counterexample: for the source position `(0, 0, 10⁻⁶)` the emitted
`Y` is `round(10⁻⁶, 5) = 0`, which differs from the source `Z = 10⁻⁶`; so
"the emitted Y equals the source Z exactly" fails. -/
theorem c2_counterexample :
    (Vertex.make true ⟨0, 0, 1/1000000⟩ ⟨0, 0⟩ ⟨0, 0, 0⟩).Y ≠
      (⟨0, 0, 1/1000000⟩ : Vec3).z := by
  show pyRound (1/1000000) 5 ≠ 1/1000000
  unfold pyRound pyRoundInt
  norm_num

/-- C2 (amended): every vertex of every exported quad is built by
`Vertex.make` from a source position `co` occurring in `mesh.vertices`, and
its emitted position is the axis swap of that source position with each
component rounded exactly once, after the swap, to 5 decimal digits:
`X = round(co.x, 5)`, `Y = round(co.z, 5)`, `Z = round(co.y, 5)`. (Exact
equality `Y = co.z`, `Z = co.y` holds only up to this rounding.) -/
theorem c2_axis_swap (include_normals : Bool) (obj : Obj) (m : Model)
    (h : exportModel include_normals obj = some m) :
    ∀ q ∈ m.Quads, ∀ v ∈ [q.Vert0, q.Vert1, q.Vert2, q.Vert3],
      ∃ co uv nm, co ∈ obj.data.vertices ∧
        v = Vertex.make include_normals co uv nm ∧
        v.X = pyRound co.x 5 ∧ v.Y = pyRound co.z 5 ∧ v.Z = pyRound co.y 5 := by
  obtain ⟨stN, hN, hnames, hquads⟩ := exportModel_eq_extractLoopN h
  obtain ⟨-, -, -, newPairs, hnew, hrel⟩ := extractLoopN_sound hN (by simp) (by simp)
  simp only [List.nil_append] at hnew
  subst hnew
  intro q hq v hv
  rw [hquads] at hq
  obtain ⟨p, hp, rfl⟩ := List.mem_map.mp hq
  obtain ⟨face, -, -, vs, hvs, hquad⟩ := forall₂_mem_right hrel p hp
  obtain ⟨-, rest, hvs_eq⟩ := Quad.make_eq_some hquad
  have hvmem : v ∈ vs := by
    rw [hvs_eq]
    rcases (by simpa using hv : v = p.1.Vert0 ∨ v = p.1.Vert1 ∨ v = p.1.Vert2 ∨
      v = p.1.Vert3) with rfl | rfl | rfl | rfl <;> simp
  obtain ⟨pp, -, co, uv, hco, -, hveq⟩ := forall₂_mem_right (vertsOfFace_sound hvs) v hvmem
  subst hveq
  exact ⟨co, uv, face.normal, List.get?_mem hco, rfl, rfl, rfl, rfl⟩

theorem c2_axis_swap_witness :
    ∃ co uv nm, co ∈ sampleObj.data.vertices ∧
      sampleQuad.Vert0 = Vertex.make false co uv nm ∧
      sampleQuad.Vert0.X = pyRound co.x 5 ∧
      sampleQuad.Vert0.Y = pyRound co.z 5 ∧
      sampleQuad.Vert0.Z = pyRound co.y 5 :=
  c2_axis_swap false sampleObj sampleModel exportModel_sampleObj
    sampleQuad (by simp [sampleModel]) sampleQuad.Vert0 (by simp)

/-- C4: the emitted texture coordinate of every vertex satisfies
`U = round(|1 - uv.x|, 4)` and `V = round(uv.y, 4)`, and whenever the source
`U` lies in `[0, 1]`, the emitted `U` also lies in `[0, 1]`. -/
theorem c4_uv_transform (include_normals : Bool) (co : Vec3) (uv : Vec2) (nm : Vec3) :
    (Vertex.make include_normals co uv nm).U = pyRound |1 - uv.x| 4 ∧
    (Vertex.make include_normals co uv nm).V = pyRound uv.y 4 ∧
    (0 ≤ uv.x → uv.x ≤ 1 →
      0 ≤ (Vertex.make include_normals co uv nm).U ∧
      (Vertex.make include_normals co uv nm).U ≤ 1) := by
  refine ⟨rfl, rfl, fun h0 h1 => ?_⟩
  have habs0 : (0 : ℚ) ≤ |1 - uv.x| := abs_nonneg _
  have habs1 : |1 - uv.x| ≤ 1 := by
    rw [abs_le]
    constructor <;> linarith
  exact ⟨pyRound_nonneg habs0 4, pyRound_le_one habs1 4⟩

theorem c4_uv_transform_witness :
    0 ≤ (Vertex.make true ⟨0, 0, 0⟩ ⟨1/2, 0⟩ ⟨0, 0, 0⟩).U ∧
    (Vertex.make true ⟨0, 0, 0⟩ ⟨1/2, 0⟩ ⟨0, 0, 0⟩).U ≤ 1 :=
  (c4_uv_transform true ⟨0, 0, 0⟩ ⟨1/2, 0⟩ ⟨0, 0, 0⟩).2.2 (by norm_num) (by norm_num)

/-- C8, counterexample: `zipObj` has a face with 4 vertex indices but 5 loop
indices, yet extraction succeeds — Python `zip` silently drops the extra
loop index instead of failing, contradicting the claim that both mismatch
directions are fatal. -/
theorem c8_counterexample :
    (zipObj.data.polygons.map fun f => (f.vertices.length, f.loop_indices.length)) =
      [(4, 5)] ∧
    exportModel true zipObj = some zipModel :=
  ⟨by simp [zipObj], exportModel_zipObj⟩

/-- C8 (amended): a quad face with fewer loop indices than its 4 vertex
indices is fatal (`verts[3]` raises, extraction aborts with no output), but a
face with more loop indices than vertex indices is not fatal: the extra loop
indices are silently ignored (see the counterexample). -/
theorem c8_loop_mismatch (include_normals : Bool) (mesh : Mesh)
    (slots : List (Option String)) (st : List String × List Quad) (face : Face)
    (h4 : face.vertices.length = 4) (hl : face.loop_indices.length < 4) :
    processFace include_normals mesh slots st face = none := by
  unfold processFace
  rw [if_neg (not_ne_iff.mpr h4)]
  cases hmat : matName slots face.material_index with
  | none => rfl
  | some s =>
    simp only []
    cases hvs : vertsOfFace include_normals mesh face with
    | none => rfl
    | some vs =>
      have hlen : vs.length = (face.vertices.zip face.loop_indices).length :=
        buildVerts_length hvs
      rw [List.length_zip, h4] at hlen
      have hshort : vs.length < 4 := by
        rw [hlen]
        exact lt_of_le_of_lt (min_le_right _ _) hl
      simp [Quad.make_none hshort]

theorem c8_loop_mismatch_witness :
    processFace true sampleMesh [some "stone"] ([], [])
      ⟨[0, 1, 2, 3], [0, 1], ⟨0, 0, 0⟩, 0⟩ = none :=
  c8_loop_mismatch true sampleMesh [some "stone"] ([], [])
    ⟨[0, 1, 2, 3], [0, 1], ⟨0, 0, 0⟩, 0⟩ (by decide) (by decide)

/-- C9: the export pipeline is a pure function of the mesh snapshot and the
configuration; two runs under different run-dependent ambient state (the
`time` argument, which the script never reads) produce byte-identical
documents, so no timestamp or other run-dependent data appears in the
output. -/
theorem c9_deterministic (t1 t2 : ℕ) (include_normals : Bool) (obj : Obj) :
    runExport t1 include_normals obj = runExport t2 include_normals obj := rfl

/-- C10: the two exporter variants are equivalent: on every input object the
core exporter produces exactly the model of the client exporter run with
`include_normals = True`, and hence the same serialized document. -/
theorem c10_core_client_equiv (obj : Obj) :
    exportModelCore obj = exportModel true obj ∧
    (exportModelCore obj).map jsonOfModel = (exportModel true obj).map jsonOfModel := by
  have h : exportModelCore obj = exportModel true obj := by
    unfold exportModelCore exportModel
    rw [extractLoopCore_eq]
  exact ⟨h, by rw [h]⟩

/-- C3: the texture table of every successfully exported model has no
duplicates, every quad's `TextureId` is a valid index into it, and each
quad's `TextureId` is the index of the material name resolved for its face —
so any two faces sharing a material name get the same `TextureId`, pointing
at that name's single occurrence. -/
theorem c3_texture_table (include_normals : Bool) (obj : Obj) (m : Model)
    (h : exportModel include_normals obj = some m) :
    m.TextureNames.Nodup ∧
    (∀ q ∈ m.Quads, q.TextureId < m.TextureNames.length) ∧
    ∃ named : List (Quad × String),
      named.map Prod.fst = m.Quads ∧
      List.Forall₂ (fun face p =>
          matName obj.material_slots face.material_index = some p.2)
        (obj.data.polygons.filter fun f => f.vertices.length == 4) named ∧
      (∀ p ∈ named, p.2 ∈ m.TextureNames ∧
        p.1.TextureId = m.TextureNames.indexOf p.2 ∧
        m.TextureNames.count p.2 = 1) ∧
      ∀ p ∈ named, ∀ p2 ∈ named, p.2 = p2.2 → p.1.TextureId = p2.1.TextureId := by
  obtain ⟨stN, hN, hnames, hquads⟩ := exportModel_eq_extractLoopN h
  obtain ⟨-, hnd, hinv, newPairs, hnew, hrel⟩ := extractLoopN_sound hN (by simp) (by simp)
  simp only [List.nil_append] at hnew
  subst hnew
  rw [hnames, hquads]
  refine ⟨hnd, ?_, stN.2, rfl, ?_, ?_, ?_⟩
  · intro q hq
    obtain ⟨p, hp, rfl⟩ := List.mem_map.mp hq
    obtain ⟨hm, hid⟩ := hinv p hp
    rw [hid]
    exact List.indexOf_lt_length.mpr hm
  · exact List.Forall₂.imp (fun a b hab => hab.1) hrel
  · intro p hp
    obtain ⟨hm, hid⟩ := hinv p hp
    exact ⟨hm, hid, List.count_eq_one_of_mem hnd hm⟩
  · intro p hp p2 hp2 heq
    rw [(hinv p hp).2, (hinv p2 hp2).2, heq]

theorem c3_texture_table_witness :
    exportModel false sampleObj = some sampleModel ∧
    sampleModel.TextureNames.Nodup ∧
    ∀ q ∈ sampleModel.Quads, q.TextureId < sampleModel.TextureNames.length :=
  ⟨exportModel_sampleObj,
   (c3_texture_table false sampleObj sampleModel exportModel_sampleObj).1,
   (c3_texture_table false sampleObj sampleModel exportModel_sampleObj).2.1⟩

/-- C5: the exported quads correspond one-to-one, in order, to the mesh's
quad faces in mesh-native iteration order, and each quad's `Vert0 .. Vert3`
are built from the face's (vertex index, loop index) pairs in the face's own
winding order — no re-triangulation, re-ordering, or winding reversal. -/
theorem c5_order_preserved (include_normals : Bool) (obj : Obj) (m : Model)
    (h : exportModel include_normals obj = some m) :
    List.Forall₂ (fun face q =>
        ∃ vs, vertsOfFace include_normals obj.data face = some vs ∧
          Quad.make q.TextureId vs = some q ∧
          List.Forall₂ (fun (p : ℕ × ℕ) v => ∃ co uv,
              obj.data.vertices.get? p.1 = some co ∧
              obj.data.uv_data.get? p.2 = some uv ∧
              v = Vertex.make include_normals co uv face.normal)
            (face.vertices.zip face.loop_indices) vs)
      (obj.data.polygons.filter fun f => f.vertices.length == 4) m.Quads := by
  obtain ⟨stN, hN, hnames, hquads⟩ := exportModel_eq_extractLoopN h
  obtain ⟨-, -, -, newPairs, hnew, hrel⟩ := extractLoopN_sound hN (by simp) (by simp)
  simp only [List.nil_append] at hnew
  subst hnew
  rw [hquads, List.forall₂_map_right_iff]
  refine List.Forall₂.imp ?_ hrel
  intro face p hab
  obtain ⟨-, vs, hvs, hq⟩ := hab
  exact ⟨vs, hvs, hq, vertsOfFace_sound hvs⟩

theorem c5_order_preserved_witness :
    (sampleObj.data.polygons.filter fun f => f.vertices.length == 4).length =
      sampleModel.Quads.length :=
  (c5_order_preserved false sampleObj sampleModel exportModel_sampleObj).length_eq

/-- C6: with normal inclusion disabled all three normal components of every
vertex are zero; with it enabled they are the axis swap of the face normal
rounded to 4 decimal digits; and in every exported quad all four corners
carry the owning face's one normal. -/
theorem c6_normals (include_normals : Bool) (obj : Obj) (m : Model)
    (h : exportModel include_normals obj = some m) :
    (∀ co uv nm, (Vertex.make false co uv nm).N = 0 ∧
      (Vertex.make false co uv nm).O = 0 ∧ (Vertex.make false co uv nm).P = 0) ∧
    (∀ co uv nm, (Vertex.make true co uv nm).N = pyRound nm.x 4 ∧
      (Vertex.make true co uv nm).O = pyRound nm.z 4 ∧
      (Vertex.make true co uv nm).P = pyRound nm.y 4) ∧
    ∀ q ∈ m.Quads, ∃ face, face ∈ obj.data.polygons ∧
      ∀ v ∈ [q.Vert0, q.Vert1, q.Vert2, q.Vert3],
        v.N = (if include_normals then pyRound face.normal.x 4 else 0) ∧
        v.O = (if include_normals then pyRound face.normal.z 4 else 0) ∧
        v.P = (if include_normals then pyRound face.normal.y 4 else 0) := by
  refine ⟨fun co uv nm => ⟨rfl, rfl, rfl⟩, fun co uv nm => ⟨rfl, rfl, rfl⟩, ?_⟩
  obtain ⟨stN, hN, hnames, hquads⟩ := exportModel_eq_extractLoopN h
  obtain ⟨-, -, -, newPairs, hnew, hrel⟩ := extractLoopN_sound hN (by simp) (by simp)
  simp only [List.nil_append] at hnew
  subst hnew
  intro q hq
  rw [hquads] at hq
  obtain ⟨p, hp, rfl⟩ := List.mem_map.mp hq
  obtain ⟨face, hface, -, vs, hvs, hquad⟩ := forall₂_mem_right hrel p hp
  refine ⟨face, List.mem_of_mem_filter hface, ?_⟩
  intro v hv
  obtain ⟨-, rest, hvs_eq⟩ := Quad.make_eq_some hquad
  have hvmem : v ∈ vs := by
    rw [hvs_eq]
    rcases (by simpa using hv : v = p.1.Vert0 ∨ v = p.1.Vert1 ∨ v = p.1.Vert2 ∨
      v = p.1.Vert3) with rfl | rfl | rfl | rfl <;> simp
  obtain ⟨pp, -, co, uv, -, -, hveq⟩ := forall₂_mem_right (vertsOfFace_sound hvs) v hvmem
  subst hveq
  exact ⟨rfl, rfl, rfl⟩

theorem c6_normals_witness :
    (Vertex.make false ⟨1, 2, 3⟩ ⟨0, 0⟩ ⟨4, 5, 6⟩).N = 0 ∧
    (Vertex.make false ⟨1, 2, 3⟩ ⟨0, 0⟩ ⟨4, 5, 6⟩).O = 0 ∧
    (Vertex.make false ⟨1, 2, 3⟩ ⟨0, 0⟩ ⟨4, 5, 6⟩).P = 0 :=
  (c6_normals false sampleObj sampleModel exportModel_sampleObj).1 ⟨1, 2, 3⟩ ⟨0, 0⟩ ⟨4, 5, 6⟩

/-- C7: a quad face whose material slot exists but holds no material gets
the sentinel name `"none"`: the sentinel enters `TextureNames` like a real
name and the face's quad carries the index of `"none"` in `TextureNames`. -/
theorem c7_material_sentinel (include_normals : Bool) (obj : Obj) (m : Model)
    (h : exportModel include_normals obj = some m) :
    List.Forall₂ (fun face q =>
        obj.material_slots.get? face.material_index = some none →
          "none" ∈ m.TextureNames ∧ q.TextureId = m.TextureNames.indexOf "none")
      (obj.data.polygons.filter fun f => f.vertices.length == 4) m.Quads := by
  obtain ⟨stN, hN, hnames, hquads⟩ := exportModel_eq_extractLoopN h
  obtain ⟨-, -, hinv, newPairs, hnew, hrel⟩ := extractLoopN_sound hN (by simp) (by simp)
  simp only [List.nil_append] at hnew
  subst hnew
  rw [hnames, hquads, List.forall₂_map_right_iff]
  have hrel2 := forall₂_and_right hrel (fun p hp => hinv p hp)
  refine List.Forall₂.imp ?_ hrel2
  intro face p hab hslot
  obtain ⟨⟨hmat, -⟩, hm, hid⟩ := hab
  have hnone : p.2 = "none" := by
    simp only [matName, hslot] at hmat
    exact (Option.some.injEq _ _ ▸ hmat).symm
  rw [← hnone]
  exact ⟨hm, hid⟩

theorem c7_material_sentinel_witness :
    List.Forall₂ (fun face q =>
        noneObj.material_slots.get? face.material_index = some none →
          "none" ∈ noneModel.TextureNames ∧
          q.TextureId = noneModel.TextureNames.indexOf "none")
      (noneObj.data.polygons.filter fun f => f.vertices.length == 4)
      noneModel.Quads :=
  c7_material_sentinel false noneObj noneModel exportModel_noneObj
